import Mathlib

/-!
Verification of `pull_all_git_branches.py`, a script that fetches all remote
branches of a git repository, checks each one out and pulls it when it is
behind its remote counterpart, logging pull failures and prompting the
operator to retry or skip.

The script is embedded shallowly:
* text is `List Char` (Python `str`), with Python's `strip`, `lower`,
  `splitlines` and `int()` parsing modelled over the ASCII characters that
  git output can contain;
* every git subprocess invocation is scripted by an `Env` value that fixes
  the outcome (stdout, stderr or timeout) of each command the run performs;
* the driver (`main` in the script) is a pure function from an `Env` and the
  list of operator inputs to a trace of events (commands invoked, prompts
  shown, log-file appends, console prints) plus an exit code.  Reading past
  the end of the operator-input list corresponds to `input()` raising
  `EOFError`, which the script does not catch, so the run aborts there.
-/

/-- Text is modelled as a list of characters. -/
abbrev Str := List Char

/-- The single-quote character `'` (used in several message formats). -/
def sqc : Char := Char.ofNat 39

/-- Whitespace characters recognised by Python's `str.strip()` (ASCII part). -/
def isPySpace (c : Char) : Bool :=
  c = ' ' || c = Char.ofNat 9 || c = Char.ofNat 10 || c = Char.ofNat 13 ||
  c = Char.ofNat 11 || c = Char.ofNat 12

/-- Python `str.strip()`: remove leading and trailing whitespace. -/
def pyStrip (s : Str) : Str :=
  ((s.dropWhile isPySpace).reverse.dropWhile isPySpace).reverse

/-- Python `str.lower()` (ASCII letters; git output and y/n input are ASCII). -/
def pyLower (s : Str) : Str := s.map Char.toLower

/-- Digit run with optional single underscores between digits, as accepted by
Python's `int()` after the sign.  Accumulates the value. -/
def pyDigitsGo : Str → Nat → Option Nat
  | [], acc => some acc
  | '_' :: c :: rest, acc =>
      if c.isDigit then pyDigitsGo rest (acc * 10 + (c.toNat - 48)) else none
  | ['_'], _ => none
  | c :: rest, acc =>
      if c.isDigit then pyDigitsGo rest (acc * 10 + (c.toNat - 48)) else none

/-- A nonempty digit run (underscore-separated) starting with a digit. -/
def pyDigits : Str → Option Nat
  | [] => none
  | c :: rest => if c.isDigit then pyDigitsGo rest (c.toNat - 48) else none

/-- Python `int(s)`: strip whitespace, optional sign, digits with optional
single underscores between them; `none` when `int()` would raise. -/
def pyInt (s : Str) : Option Int :=
  match pyStrip s with
  | '+' :: rest => (pyDigits rest).map (fun n => (n : Int))
  | '-' :: rest => (pyDigits rest).map (fun n => -(n : Int))
  | rest => (pyDigits rest).map (fun n => (n : Int))

/-- Does `"->"` start this string? -/
def startsArrow : Str → Bool
  | c :: d :: _ => c = '-' && d = '>'
  | _ => false

/-- Python `"->" in s`: does `"->"` occur anywhere in `s`? -/
def hasArrow : Str → Bool
  | [] => false
  | c :: rest => startsArrow (c :: rest) || hasArrow rest

/-- Python `str.splitlines()` worker: split at `\n`, `\r` or `\r\n`, no empty
final line for a trailing terminator. -/
def slGo : Str → Str → List Str
  | [], acc => [acc.reverse]
  | '\r' :: '\n' :: rest, acc =>
      acc.reverse :: (match rest with | [] => [] | _ :: _ => slGo rest [])
  | '\r' :: rest, acc =>
      acc.reverse :: (match rest with | [] => [] | _ :: _ => slGo rest [])
  | '\n' :: rest, acc =>
      acc.reverse :: (match rest with | [] => [] | _ :: _ => slGo rest [])
  | c :: rest, acc => slGo rest (c :: acc)

/-- Python `str.splitlines()` (for the line terminators git emits). -/
def pySplitlines : Str → List Str
  | [] => []
  | s => slGo s []

/-- Result of `re.match(r"origin/(.+)", s)`: `some (m.group 1)` when the
pattern matches at the start of `s`.  `.` does not match a newline and `.+`
is greedy, so the group is the maximal newline-free run after `origin/`,
which must be nonempty. -/
def reMatchOrigin (s : Str) : Option Str :=
  if s.take 7 = "origin/".data then
    match s.drop 7 with
    | [] => none
    | c :: rest =>
        if c = '\n' then none
        else some ((c :: rest).takeWhile (fun x => x ≠ '\n'))
  else none

/-- One iteration of the loop in `get_remote_branches`: strip the line, skip
it when it contains `"->"`, otherwise strip a leading `origin/` via the
regular expression, falling back to the stripped line itself. -/
def processLine (line : Str) : Option Str :=
  let s := pyStrip line
  if hasArrow s then none
  else
    match reMatchOrigin s with
    | some r => some r
    | none => some s

/-- The branch-name list built by `get_remote_branches` from the (already
stripped) stdout of `git branch -r`. -/
def parseRemoteBranches (out : Str) : List Str :=
  (pySplitlines out).filterMap processLine

/-- Outcome scripted for one subprocess invocation: stdout on success (exit
status 0), stderr on failure (`CalledProcessError`), or a timeout
(`TimeoutExpired`). -/
inductive CmdOutcome
  | success (stdout : Str)
  | failure (stderr : Str)
  | timedOut
deriving DecidableEq

/-- `run_command(cmd, ...)`: returns the stripped stdout on success; raises
(here: `Except.error`) with the stripped stderr on failure, or with a
synthesized message on timeout. -/
def run_command (cmd : Str) (timeout : Nat) (o : CmdOutcome) : Except Str Str :=
  match o with
  | CmdOutcome.success s => Except.ok (pyStrip s)
  | CmdOutcome.failure e => Except.error (pyStrip e)
  | CmdOutcome.timedOut =>
      Except.error ("Command ".data ++ [sqc] ++ cmd ++ [sqc] ++
        " timed out after ".data ++ (toString timeout).data ++ " seconds.".data)

/-- `is_git_repo()`: runs `git rev-parse --is-inside-work-tree` and tests
whether the (stripped, lowercased) output equals `"true"`; any exception
yields `False`. -/
def is_git_repo (o : CmdOutcome) : Bool :=
  match run_command "git rev-parse --is-inside-work-tree".data 10 o with
  | Except.ok out => pyLower out = "true".data
  | Except.error _ => false

/-- `get_remote_branches()`: runs `git branch -r` and parses its output;
a command failure propagates as an exception. -/
def get_remote_branches (o : CmdOutcome) : Except Str (List Str) :=
  match run_command "git branch -r".data 10 o with
  | Except.ok out => Except.ok (parseRemoteBranches out)
  | Except.error e => Except.error e

/-- Observable events of a run: git commands invoked, operator prompts shown,
attempted appends to the error-log file (with their success flag), and
console prints. -/
inductive Event
  | gitRevParse
  | gitFetch
  | gitBranchR
  | gitCheckout (b : Str)
  | gitRevList (b : Str)
  | gitPull
  | prompt (b : Str)
  | logAppend (b msg : Str) (ok : Bool)
  | print (s : Str)
deriving DecidableEq

/-- The argv of `git checkout <branch>`, joined. -/
def checkoutCmd (b : Str) : Str := "git checkout ".data ++ b

/-- The argv of `git rev-list --count <branch>..origin/<branch>`, joined. -/
def revListCmd (b : Str) : Str :=
  "git rev-list --count ".data ++ b ++ "..origin/".data ++ b

/-- The line format written to the error log:
`Pull error on branch '<branch>': <message>`. -/
def logFormat (b m : Str) : Str :=
  "Pull error on branch ".data ++ sqc :: b ++ sqc :: ": ".data ++ m

/-- Message printed by `branch_needs_pull` when the comparison fails. -/
def compareErrMsg (b e : Str) : Str :=
  "  Could not compare branch ".data ++ sqc :: b ++ sqc :: " with remote: ".data ++ e

/-- The `ValueError` text raised by `int()` on a non-numeric string. -/
def valueErrMsg (s : Str) : Str :=
  "invalid literal for int() with base 10: ".data ++ sqc :: s ++ [sqc]

/-- The per-branch banner `Processing branch '<b>':`. -/
def procMsg (b : Str) : Str := "Processing branch ".data ++ sqc :: b ++ sqc :: ":".data

/-- The message printed when a checkout fails. -/
def checkoutErrMsg (b e : Str) : Str :=
  "  Error checking out branch ".data ++ sqc :: b ++ sqc :: ": ".data ++ e

/-- The message printed when the initial pull fails. -/
def pullErrMsg (b e : Str) : Str :=
  "  Error pulling branch ".data ++ sqc :: b ++ sqc :: ": ".data ++ e

/-- The message printed when the operator declines a retry. -/
def skipMsg (b : Str) : Str :=
  "  Skipping pull for branch ".data ++ sqc :: b ++ sqc :: ".".data

/-- The message printed when a retried pull fails. -/
def retryFailedMsg (e : Str) : Str := "  Retry failed: ".data ++ e

/-- The guidance message for inputs other than `y`/`n`. -/
def pleaseMsg : Str :=
  "  Please enter ".data ++ sqc :: 'y' :: sqc :: " (yes) or ".data ++
    sqc :: 'n' :: sqc :: " (no).".data

/-- Scripted outcomes of every external interaction of one run: the fixed
git commands, plus per-branch checkout/rev-list outcomes, the outcome of the
k-th `git pull` of the run, and the outcome of the k-th log-file append. -/
structure Env where
  revParse : CmdOutcome
  fetchAll : CmdOutcome
  branchR : CmdOutcome
  checkout : Str → CmdOutcome
  revList : Str → CmdOutcome
  pull : Nat → CmdOutcome
  logWrite : Nat → Except Str Unit

/-- Replace the log-append outcomes of an environment. -/
def setLogWrite (env : Env) (w : Nat → Except Str Unit) : Env :=
  Env.mk env.revParse env.fetchAll env.branchR env.checkout env.revList env.pull w

/-- `log_pull_error(branch, msg)`: append one formatted line to the log file;
an exception while opening/writing is caught and printed, and the function
returns normally either way.  The events record the append attempt and, on
failure, the console print. -/
def log_pull_error (branch msg : Str) (w : Except Str Unit) : List Event :=
  match w with
  | Except.ok _ => [Event.logAppend branch msg true]
  | Except.error ex =>
      [Event.logAppend branch msg false,
       Event.print ("Error logging pull error: ".data ++ ex)]

/-- `branch_needs_pull(branch)`: run the rev-list count query and test
`int(count) > 0`; any exception (command failure, timeout, or `int()`
raising on unparseable output) is caught, printed, and answered with `True`
(if in doubt, assume pull is needed).  Returns the answer and the prints. -/
def branch_needs_pull (b : Str) (o : CmdOutcome) : Bool × List Event :=
  match run_command (revListCmd b) 10 o with
  | Except.ok count =>
      match pyInt count with
      | some n => (decide (0 < n), [])
      | none => (true, [Event.print (compareErrMsg b (valueErrMsg count))])
  | Except.error e => (true, [Event.print (compareErrMsg b e)])

/-- Result of processing one branch (or a tail of the run): the events so
far together with the next pull index, next log-append index and remaining
operator inputs, or — when `input()` hits end of input and raises an
uncaught `EOFError` — just the events up to the abort. -/
abbrev BranchResult := Except (List Event) (List Event × Nat × Nat × List Str)

/-- Prepend already-produced events to a result. -/
def withEvents (E : List Event) : BranchResult → BranchResult
  | Except.error evs => Except.error (E ++ evs)
  | Except.ok (evs, p, l, ins) => Except.ok (E ++ evs, p, l, ins)

/-- Events of a result, whether it aborted or not. -/
def eventsOf : BranchResult → List Event
  | Except.error evs => evs
  | Except.ok (evs, _, _, _) => evs

/-- Control-flow shape of a result: `none` on abort, otherwise the counters
and remaining inputs. -/
def shape : BranchResult → Option (Nat × Nat × List Str)
  | Except.error _ => none
  | Except.ok (_, p, l, ins) => some (p, l, ins)

/-- The `while True` retry loop after a failed pull: prompt the operator;
`y` retries the pull (success leaves the loop, failure logs a `Retry: `
entry and loops), `n` leaves the loop, anything else re-prompts.  Exhausting
the operator inputs models `input()` raising `EOFError` after showing the
prompt, which the script does not catch. -/
def retry_loop (env : Env) (b : Str) : Nat → Nat → List Str → BranchResult
  | _, _, [] => Except.error [Event.prompt b]
  | p, l, u :: rest =>
    let ul := pyLower (pyStrip u)
    if ul = "y".data then
      match run_command "git pull".data 10 (env.pull p) with
      | Except.ok _ =>
          Except.ok ([Event.prompt b, Event.print "  Retrying pull...".data,
            Event.gitPull, Event.print "  Pull succeeded.".data], p + 1, l, rest)
      | Except.error e2 =>
          withEvents ([Event.prompt b, Event.print "  Retrying pull...".data,
              Event.gitPull, Event.print (retryFailedMsg e2)] ++
              log_pull_error b ("Retry: ".data ++ e2) (env.logWrite l))
            (retry_loop env b (p + 1) (l + 1) rest)
    else if ul = "n".data then
      Except.ok ([Event.prompt b, Event.print (skipMsg b)], p, l, rest)
    else
      withEvents [Event.prompt b, Event.print pleaseMsg]
        (retry_loop env b p l rest)

/-- The body of the per-branch loop in `main`: check the branch out (failure
prints and moves on), ask `branch_needs_pull` (a `False` answer skips the
pull), then pull, and on pull failure log the error and enter the retry
loop. -/
def process_branch (env : Env) (b : Str) (p l : Nat) (ins : List Str) : BranchResult :=
  let e0 := [Event.print (procMsg b),
    Event.print "Checking out branch...".data, Event.gitCheckout b]
  match run_command (checkoutCmd b) 10 (env.checkout b) with
  | Except.error e =>
      Except.ok (e0 ++ [Event.print (checkoutErrMsg b e)], p, l, ins)
  | Except.ok _ =>
    let r := branch_needs_pull b (env.revList b)
    let e1 := e0 ++ Event.gitRevList b :: r.snd
    if r.fst = false then
      Except.ok (e1 ++ [Event.print "  Branch is already up to date. Skipping pull.".data],
        p, l, ins)
    else
      let e2 := e1 ++ [Event.print "  Pulling latest changes...".data, Event.gitPull]
      match run_command "git pull".data 10 (env.pull p) with
      | Except.ok _ => Except.ok (e2, p + 1, l, ins)
      | Except.error e =>
          withEvents (e2 ++ Event.print (pullErrMsg b e) ::
              log_pull_error b e (env.logWrite l))
            (retry_loop env b (p + 1) (l + 1) ins)

/-- The per-branch loop of `main`, over the enumerated branch names. -/
def branch_loop (env : Env) : List Str → Nat → Nat → List Str → BranchResult
  | [], p, l, ins => Except.ok ([], p, l, ins)
  | b :: bs, p, l, ins =>
    match process_branch env b p l ins with
    | Except.error evs => Except.error evs
    | Except.ok (evs, p2, l2, ins2) => withEvents evs (branch_loop env bs p2 l2 ins2)

/-- Outcome of a whole run: normal termination via `sys.exit`/fall-through
with an exit code, or an abnormal abort (uncaught `EOFError`). -/
inductive RunResult
  | exited (events : List Event) (code : Nat)
  | aborted (events : List Event)
deriving DecidableEq

/-- `main()` (named `mainRun` since Lean reserves `main`): repository check (exit 1 on failure), fetch all remotes (exit 1
on failure), enumerate remote branches (exit 1 on failure, exit 0 when the
list is empty), then process each branch in order and exit 0. -/
def mainRun (env : Env) (inputs : List Str) : RunResult :=
  if is_git_repo env.revParse = false then
    RunResult.exited
      [Event.gitRevParse, Event.print "Error: This directory is not a Git repository.".data] 1
  else
    let e0 := [Event.gitRevParse, Event.print "Fetching all remote branches...".data,
      Event.gitFetch]
    match run_command "git fetch --all".data 10 env.fetchAll with
    | Except.error _ =>
        RunResult.exited (e0 ++ [Event.print "Failed to fetch remote branches. Exiting.".data]) 1
    | Except.ok _ =>
      let e1 := e0 ++ [Event.gitBranchR]
      match get_remote_branches env.branchR with
      | Except.error _ =>
          RunResult.exited (e1 ++ [Event.print "Failed to retrieve remote branches.".data]) 1
      | Except.ok branches =>
        if branches = [] then
          RunResult.exited (e1 ++ [Event.print "No remote branches found.".data]) 0
        else
          match branch_loop env branches 0 0 inputs with
          | Except.error evs => RunResult.aborted (e1 ++ evs)
          | Except.ok (evs, _, _, _) =>
              RunResult.exited (e1 ++ evs ++ [Event.print "All branches processed.".data]) 0

/-- Number of `git pull` invocations in an event trace. -/
def pullCount (es : List Event) : Nat :=
  es.countP (fun e => match e with | Event.gitPull => true | _ => false)

/-- Number of operator prompts in an event trace. -/
def promptCount (es : List Event) : Nat :=
  es.countP (fun e => match e with | Event.prompt _ => true | _ => false)

/-- Number of attempted log-file appends in an event trace. -/
def logCallCount (es : List Event) : Nat :=
  es.countP (fun e => match e with | Event.logAppend _ _ _ => true | _ => false)

/-- The lines present in the error-log file for branch `b` after a trace:
the formatted lines of the successful appends for `b`, in order. -/
def logLinesFor (b : Str) (es : List Event) : List Str :=
  es.filterMap (fun e => match e with
    | Event.logAppend b2 m true => if b2 = b then some (logFormat b2 m) else none
    | _ => none)

/-- The control-flow skeleton of a trace: the git commands and prompts, with
log-file appends and console prints erased. -/
def gitEvents (es : List Event) : List Event :=
  es.filter (fun e => match e with
    | Event.logAppend _ _ _ => false
    | Event.print _ => false
    | _ => true)

/-- The events of one branch whose pull failed, was retried after a `y`
answer, and failed again (up to the point where the prompt re-appears):
checkout, staleness query, failing pull, first log entry, prompt, retried
failing pull, second (`Retry: `-marked) log entry. -/
def claim6Events (env : Env) (b e1 e2 : Str) : List Event :=
  [Event.print (procMsg b), Event.print "Checking out branch...".data,
   Event.gitCheckout b, Event.gitRevList b] ++
  (branch_needs_pull b (env.revList b)).snd ++
  [Event.print "  Pulling latest changes...".data, Event.gitPull,
   Event.print (pullErrMsg b e1), Event.logAppend b e1 true, Event.prompt b,
   Event.print "  Retrying pull...".data, Event.gitPull,
   Event.print (retryFailedMsg e2), Event.logAppend b ("Retry: ".data ++ e2) true]

/-- Witness environment for C1: rev-list reports a zero count. -/
def envC1 : Env :=
  Env.mk (CmdOutcome.success "true".data) (CmdOutcome.success [])
    (CmdOutcome.success "origin/dev".data) (fun _ => CmdOutcome.success [])
    (fun _ => CmdOutcome.success "0\n".data) (fun _ => CmdOutcome.success [])
    (fun _ => Except.ok ())

/-- Witness environment for C2: the rev-list comparison query fails. -/
def envC2 : Env :=
  Env.mk (CmdOutcome.success "true".data) (CmdOutcome.success [])
    (CmdOutcome.success "origin/dev".data) (fun _ => CmdOutcome.success [])
    (fun _ => CmdOutcome.failure "fatal: bad revision".data)
    (fun _ => CmdOutcome.success []) (fun _ => Except.ok ())

/-- Witness environment for C5 and C6: the branch is behind and every pull
fails. -/
def envC5 : Env :=
  Env.mk (CmdOutcome.success "true".data) (CmdOutcome.success [])
    (CmdOutcome.success "origin/dev".data) (fun _ => CmdOutcome.success [])
    (fun _ => CmdOutcome.success "3".data)
    (fun _ => CmdOutcome.failure "merge conflict".data) (fun _ => Except.ok ())

/-- Witness environment for C6 (same scripted outcomes as for C5). -/
def envC6 : Env :=
  Env.mk (CmdOutcome.success "true".data) (CmdOutcome.success [])
    (CmdOutcome.success "origin/dev".data) (fun _ => CmdOutcome.success [])
    (fun _ => CmdOutcome.success "3".data)
    (fun _ => CmdOutcome.failure "merge conflict".data) (fun _ => Except.ok ())

/-- Witness environment for C7: the working directory is not a repository. -/
def envC7 : Env :=
  Env.mk (CmdOutcome.failure "fatal: not a git repository".data)
    (CmdOutcome.success []) (CmdOutcome.success "origin/dev".data)
    (fun _ => CmdOutcome.success []) (fun _ => CmdOutcome.success "0".data)
    (fun _ => CmdOutcome.success []) (fun _ => Except.ok ())

/-- Witness environment for C8: every checkout fails. -/
def envC8 : Env :=
  Env.mk (CmdOutcome.success "true".data) (CmdOutcome.success [])
    (CmdOutcome.success "origin/dev".data)
    (fun _ => CmdOutcome.failure "error: pathspec did not match".data)
    (fun _ => CmdOutcome.success "0".data) (fun _ => CmdOutcome.success [])
    (fun _ => Except.ok ())

/-! General lemmas about the text helpers and the event machinery. -/

/-- A string without `"->"` keeps that property when something is appended
after the fact is restricted to its left part. -/
theorem hasArrow_append_left (a bs : Str) (h : hasArrow (a ++ bs) = false) :
    hasArrow a = false := by
  induction a with
  | nil => rfl
  | cons c t ih =>
    rw [List.cons_append, hasArrow, Bool.or_eq_false_iff] at h
    rw [hasArrow, Bool.or_eq_false_iff]
    refine ⟨?_, ih h.2⟩
    cases t with
    | nil => rfl
    | cons d t2 => exact h.1

/-- The right part of an arrow-free concatenation is arrow-free. -/
theorem hasArrow_append_right (a bs : Str) (h : hasArrow (a ++ bs) = false) :
    hasArrow bs = false := by
  induction a with
  | nil => exact h
  | cons c t ih =>
    rw [List.cons_append, hasArrow, Bool.or_eq_false_iff] at h
    exact ih h.2

/-- Dropping a prefix of an arrow-free string keeps it arrow-free. -/
theorem hasArrow_drop (s : Str) (n : Nat) (h : hasArrow s = false) :
    hasArrow (s.drop n) = false := by
  rw [← List.take_append_drop n s] at h
  exact hasArrow_append_right _ _ h

/-- `takeWhile` of an arrow-free string is arrow-free. -/
theorem hasArrow_takeWhile (q : Char → Bool) (s : Str) (h : hasArrow s = false) :
    hasArrow (s.takeWhile q) = false := by
  rw [← List.takeWhile_append_dropWhile (p := q) (l := s)] at h
  exact hasArrow_append_left _ _ h

/-- The group captured by `re.match(r"origin/(.+)", s)` on an arrow-free
string is arrow-free. -/
theorem reMatchOrigin_no_arrow (s r : Str) (hm : reMatchOrigin s = some r)
    (h : hasArrow s = false) : hasArrow r = false := by
  unfold reMatchOrigin at hm
  by_cases ht : s.take 7 = "origin/".data
  · rw [if_pos ht] at hm
    rcases hd : s.drop 7 with _ | ⟨c, rest⟩
    · rw [hd] at hm; cases hm
    · rw [hd] at hm
      dsimp only at hm
      by_cases hc : c = '\n'
      · rw [if_pos hc] at hm; cases hm
      · rw [if_neg hc] at hm
        injection hm with hr
        have h7 : hasArrow (s.drop 7) = false := hasArrow_drop s 7 h
        rw [hd] at h7
        rw [← hr]
        exact hasArrow_takeWhile _ _ h7
  · rw [if_neg ht] at hm; cases hm

/-- Every branch name produced by one line of `get_remote_branches` is
arrow-free. -/
theorem processLine_no_arrow (line n : Str) (h : processLine line = some n) :
    hasArrow n = false := by
  unfold processLine at h
  by_cases ha : hasArrow (pyStrip line) = true
  · simp only [ha, if_true] at h; cases h
  · rw [Bool.not_eq_true] at ha
    simp only [ha, Bool.false_eq_true, if_false] at h
    rcases hm : reMatchOrigin (pyStrip line) with _ | r
    · rw [hm] at h
      injection h with h2
      rw [← h2]; exact ha
    · rw [hm] at h
      injection h with h2
      rw [← h2]
      exact reMatchOrigin_no_arrow _ _ hm ha

/-- Characters of a stripped string come from the original string. -/
theorem mem_of_mem_pyStrip (s : Str) (x : Char) (h : x ∈ pyStrip s) : x ∈ s := by
  unfold pyStrip at h
  rw [List.mem_reverse] at h
  have h1 := (List.dropWhile_sublist (l := (s.dropWhile isPySpace).reverse)
    (p := isPySpace)).subset h
  rw [List.mem_reverse] at h1
  exact (List.dropWhile_sublist (l := s) (p := isPySpace)).subset h1

/-- `takeWhile` keeps everything when the predicate holds everywhere. -/
theorem takeWhile_all (q : Char → Bool) :
    ∀ ll : Str, (∀ x ∈ ll, q x = true) → ll.takeWhile q = ll := by
  intro ll
  induction ll with
  | nil => intro _; rfl
  | cons c t ih =>
    intro hall
    rw [List.takeWhile_cons]
    simp only [hall c (List.mem_cons_self c t), if_true,
      ih (fun x hx => hall x (List.mem_cons_of_mem c hx))]

/-- Events of a result with a prepended trace. -/
@[simp] theorem eventsOf_withEvents (E : List Event) (r : BranchResult) :
    eventsOf (withEvents E r) = E ++ eventsOf r := by
  rcases r with evs | ⟨evs, p, l, ins⟩ <;> rfl

/-- Prepending events does not change the control-flow shape of a result. -/
@[simp] theorem shape_withEvents (E : List Event) (r : BranchResult) :
    shape (withEvents E r) = shape r := by
  rcases r with evs | ⟨evs, p, l, ins⟩ <;> rfl

/-- `gitEvents` distributes over concatenation. -/
theorem gitEvents_append (a bs : List Event) :
    gitEvents (a ++ bs) = gitEvents a ++ gitEvents bs := by
  unfold gitEvents
  exact List.filter_append _ _

/-- A `log_pull_error` call contributes no git commands or prompts. -/
theorem gitEvents_log_pull_error (b m : Str) (w : Except Str Unit) :
    gitEvents (log_pull_error b m w) = [] := by
  rcases w with _ | ex <;> rfl

/-- The prints of `branch_needs_pull` contain no pull invocation. -/
@[simp] theorem pullCount_bn_snd (b : Str) (o : CmdOutcome) :
    pullCount (branch_needs_pull b o).snd = 0 := by
  unfold branch_needs_pull
  rcases run_command (revListCmd b) 10 o with e | s
  · rfl
  · dsimp only
    rcases pyInt s with _ | n <;> rfl

/-- The prints of `branch_needs_pull` contain no prompt. -/
theorem promptCount_bn_snd (b : Str) (o : CmdOutcome) :
    promptCount (branch_needs_pull b o).snd = 0 := by
  unfold branch_needs_pull
  rcases run_command (revListCmd b) 10 o with e | s
  · rfl
  · dsimp only
    rcases pyInt s with _ | n <;> rfl

/-- The prints of `branch_needs_pull` contain no log append. -/
theorem logCallCount_bn_snd (b : Str) (o : CmdOutcome) :
    logCallCount (branch_needs_pull b o).snd = 0 := by
  unfold branch_needs_pull
  rcases run_command (revListCmd b) 10 o with e | s
  · rfl
  · dsimp only
    rcases pyInt s with _ | n <;> rfl

/-- The prints of `branch_needs_pull` contribute no log-file lines. -/
@[simp] theorem logLinesFor_bn_snd (b2 b : Str) (o : CmdOutcome) :
    logLinesFor b2 (branch_needs_pull b o).snd = [] := by
  unfold branch_needs_pull
  rcases run_command (revListCmd b) 10 o with e | s
  · rfl
  · dsimp only
    rcases pyInt s with _ | n <;> rfl

/-- `logLinesFor` distributes over concatenation. -/
@[simp] theorem logLinesFor_append (b : Str) (a bs : List Event) :
    logLinesFor b (a ++ bs) = logLinesFor b a ++ logLinesFor b bs := by
  unfold logLinesFor
  exact List.filterMap_append a bs _

/-- `pullCount` distributes over concatenation. -/
@[simp] theorem pullCount_append (a bs : List Event) :
    pullCount (a ++ bs) = pullCount a + pullCount bs := by
  unfold pullCount
  exact List.countP_append _ a bs

/-- `promptCount` distributes over concatenation. -/
theorem promptCount_append (a bs : List Event) :
    promptCount (a ++ bs) = promptCount a + promptCount bs := by
  unfold promptCount
  exact List.countP_append _ a bs

/-! Claims. -/

/-- C3: For every remote branch listing, no line containing the
symbolic-alias marker `"->"` ever appears (in any form) in the canonical
branch-name list produced by enumeration; such lines are discarded. -/
theorem claim3_no_alias_in_branch_list (out n : Str)
    (h : n ∈ parseRemoteBranches out) : hasArrow n = false := by
  unfold parseRemoteBranches at h
  rcases List.mem_filterMap.mp h with ⟨line, _, hpl⟩
  exact processLine_no_arrow line n hpl

/-- Witness for C3 on a concrete listing with a `HEAD -> origin/main`
alias line. -/
theorem claim3_witness :
    "main".data ∈ parseRemoteBranches
      "  origin/HEAD -> origin/main\n  origin/main\n  origin/dev".data ∧
    hasArrow "main".data = false :=
  ⟨by decide,
   claim3_no_alias_in_branch_list
     "  origin/HEAD -> origin/main\n  origin/main\n  origin/dev".data
     "main".data (by decide)⟩

/-- C4: For every non-alias line of the remote branch listing, enumeration
strips exactly one leading `origin/` from the stripped line when present and
nonempty, and a name without that leading part passes through unchanged. -/
theorem claim4_origin_stripping (line : Str)
    (hna : hasArrow (pyStrip line) = false) (hnl : '\n' ∉ line) :
    (∀ r, pyStrip line = "origin/".data ++ r → r ≠ [] →
      processLine line = some r) ∧
    ((∀ r, pyStrip line = "origin/".data ++ r → r = []) →
      processLine line = some (pyStrip line)) := by
  constructor
  · intro r hdec hne
    have ht : (pyStrip line).take 7 = "origin/".data := by rw [hdec]; rfl
    have hdr : (pyStrip line).drop 7 = r := by rw [hdec]; rfl
    rcases r with _ | ⟨c, rest⟩
    · exact absurd rfl hne
    · have hcm : c ∈ pyStrip line := by
        rw [hdec]; exact List.mem_append_right _ (List.mem_cons_self c rest)
      have hc : ¬c = '\n' := fun hEq =>
        hnl (hEq ▸ mem_of_mem_pyStrip line c hcm)
      have hall : ∀ x ∈ c :: rest, (fun x => decide (x ≠ '\n')) x = true := by
        intro x hx
        have hxm : x ∈ pyStrip line := by
          rw [hdec]; exact List.mem_append_right _ hx
        simp only [decide_eq_true_eq]
        exact fun hEq => hnl (hEq ▸ mem_of_mem_pyStrip line x hxm)
      have hm : reMatchOrigin (pyStrip line) = some (c :: rest) := by
        unfold reMatchOrigin
        rw [if_pos ht, hdr]
        dsimp only
        rw [if_neg hc, takeWhile_all _ _ hall]
      unfold processLine
      simp only [hna, Bool.false_eq_true, if_false, hm]
  · intro hall
    by_cases ht : (pyStrip line).take 7 = "origin/".data
    · have hdec : pyStrip line = "origin/".data ++ (pyStrip line).drop 7 := by
        conv_lhs => rw [← List.take_append_drop 7 (pyStrip line)]
        rw [ht]
      have hnil : (pyStrip line).drop 7 = [] := hall _ hdec
      have hm : reMatchOrigin (pyStrip line) = none := by
        unfold reMatchOrigin
        rw [if_pos ht, hnil]
      unfold processLine
      simp only [hna, Bool.false_eq_true, if_false, hm]
    · have hm : reMatchOrigin (pyStrip line) = none := by
        unfold reMatchOrigin
        rw [if_neg ht]
      unfold processLine
      simp only [hna, Bool.false_eq_true, if_false, hm]

/-- Witness for C4 on the concrete listing line `  origin/feature-x`. -/
theorem claim4_witness :
    (∀ r, pyStrip "  origin/feature-x".data = "origin/".data ++ r → r ≠ [] →
      processLine "  origin/feature-x".data = some r) ∧
    ((∀ r, pyStrip "  origin/feature-x".data = "origin/".data ++ r → r = []) →
      processLine "  origin/feature-x".data =
        some (pyStrip "  origin/feature-x".data)) :=
  claim4_origin_stripping "  origin/feature-x".data (by decide) (by decide)

/-- C9 counterexample: the repository check passes on the output `"True"`,
which is not the literal text `"true"`, because the code lowercases the
output before comparing. -/
theorem claim9_counterexample :
    is_git_repo (CmdOutcome.success "True".data) = true ∧
    pyStrip "True".data ≠ "true".data := by
  constructor
  · decide
  · decide

/-- C9 (amended): the repository check passes exactly when the
is-inside-work-tree query succeeds and its output, stripped of surrounding
whitespace and lowercased, is `"true"`; any other output, or a command
failure, causes the check to fail. -/
theorem claim9_repo_check_amended (o : CmdOutcome) :
    is_git_repo o = true ↔
      ∃ s, o = CmdOutcome.success s ∧ pyLower (pyStrip s) = "true".data := by
  rcases o with s | e | _
  · unfold is_git_repo run_command
    dsimp only
    simp only [decide_eq_true_eq, CmdOutcome.success.injEq]
    constructor
    · intro h; exact ⟨s, rfl, h⟩
    · rintro ⟨s2, hEq, h⟩; rw [← hEq] at h; exact h
  · unfold is_git_repo run_command
    simp
  · unfold is_git_repo run_command
    simp

/-- `pullCount` of an empty trace. -/
@[simp] theorem pullCount_nil : pullCount [] = 0 := rfl

/-- One step of `pullCount`. -/
@[simp] theorem pullCount_cons (ev : Event) (es : List Event) :
    pullCount (ev :: es) = (if ev = Event.gitPull then 1 else 0) + pullCount es := by
  rcases ev <;> simp [pullCount, List.countP_cons] <;> omega

/-- `logLinesFor` of an empty trace. -/
@[simp] theorem logLinesFor_nil (b : Str) : logLinesFor b [] = [] := rfl

/-- Prints contribute no log-file lines. -/
@[simp] theorem logLinesFor_cons_print (b s : Str) (es : List Event) :
    logLinesFor b (Event.print s :: es) = logLinesFor b es := rfl

/-- Prompts contribute no log-file lines. -/
@[simp] theorem logLinesFor_cons_prompt (b b2 : Str) (es : List Event) :
    logLinesFor b (Event.prompt b2 :: es) = logLinesFor b es := rfl

/-- Pull invocations contribute no log-file lines. -/
@[simp] theorem logLinesFor_cons_gitPull (b : Str) (es : List Event) :
    logLinesFor b (Event.gitPull :: es) = logLinesFor b es := rfl

/-- Checkout invocations contribute no log-file lines. -/
@[simp] theorem logLinesFor_cons_gitCheckout (b b2 : Str) (es : List Event) :
    logLinesFor b (Event.gitCheckout b2 :: es) = logLinesFor b es := rfl

/-- Rev-list invocations contribute no log-file lines. -/
@[simp] theorem logLinesFor_cons_gitRevList (b b2 : Str) (es : List Event) :
    logLinesFor b (Event.gitRevList b2 :: es) = logLinesFor b es := rfl

/-- A successful append for branch `b2` contributes its formatted line to
branch `b2`'s log view; failed appends contribute nothing. -/
@[simp] theorem logLinesFor_cons_logAppend (b b2 m : Str) (ok : Bool) (es : List Event) :
    logLinesFor b (Event.logAppend b2 m ok :: es) =
      (if ok = true then (if b2 = b then [logFormat b2 m] else []) else []) ++
        logLinesFor b es := by
  cases ok
  · rfl
  · by_cases hbb : b2 = b <;> simp [logLinesFor, List.filterMap_cons, hbb]

/-- The comparison-failure prints never contain a pull invocation. -/
@[simp] theorem gitPull_not_mem_bn_snd (b : Str) (o : CmdOutcome) :
    Event.gitPull ∉ (branch_needs_pull b o).snd := by
  unfold branch_needs_pull
  rcases run_command (revListCmd b) 10 o with e | s
  · simp
  · dsimp only
    rcases pyInt s with _ | n <;> simp

/-- The comparison-failure prints never contain a prompt. -/
@[simp] theorem prompt_not_mem_bn_snd (b2 b : Str) (o : CmdOutcome) :
    Event.prompt b2 ∉ (branch_needs_pull b o).snd := by
  unfold branch_needs_pull
  rcases run_command (revListCmd b) 10 o with e | s
  · simp
  · dsimp only
    rcases pyInt s with _ | n <;> simp

/-- The comparison-failure prints never contain a log append. -/
@[simp] theorem logAppend_not_mem_bn_snd (b2 m : Str) (ok : Bool) (b : Str) (o : CmdOutcome) :
    Event.logAppend b2 m ok ∉ (branch_needs_pull b o).snd := by
  unfold branch_needs_pull
  rcases run_command (revListCmd b) 10 o with e | s
  · simp
  · dsimp only
    rcases pyInt s with _ | n <;> simp

/-- `log_pull_error` contributes no pull invocation. -/
@[simp] theorem pullCount_log_pull_error (b m : Str) (w : Except Str Unit) :
    pullCount (log_pull_error b m w) = 0 := by
  rcases w with ex | _ <;> rfl

/-- Nested `withEvents` collapse. -/
@[simp] theorem withEvents_withEvents (a bs : List Event) (r : BranchResult) :
    withEvents a (withEvents bs r) = withEvents (a ++ bs) r := by
  rcases r with evs | ⟨evs, p, l, ins⟩ <;> simp [withEvents]

/-- `eventsOf` on a normal result. -/
@[simp] theorem eventsOf_ok (evs : List Event) (p l : Nat) (ins : List Str) :
    eventsOf (Except.ok (evs, p, l, ins)) = evs := rfl

/-- `eventsOf` on an aborted result. -/
@[simp] theorem eventsOf_error (evs : List Event) :
    eventsOf (Except.error evs : BranchResult) = evs := rfl

/-- `shape` on a normal result. -/
@[simp] theorem shape_ok (evs : List Event) (p l : Nat) (ins : List Str) :
    shape (Except.ok (evs, p, l, ins)) = some (p, l, ins) := rfl

/-- `shape` on an aborted result. -/
@[simp] theorem shape_error (evs : List Event) :
    shape (Except.error evs : BranchResult) = none := rfl

/-- C1: For every branch, if the ahead/behind count query
(`git rev-list --count branch..origin/branch`) succeeds and returns `"0"`,
the driver does not invoke any pull for that branch and continues to the
next branch. -/
theorem claim1_zero_count_skips_pull (env : Env) (b : Str) (p l : Nat)
    (ins : List Str)
    (h : run_command (revListCmd b) 10 (env.revList b) = Except.ok "0".data) :
    shape (process_branch env b p l ins) = some (p, l, ins) ∧
    Event.gitPull ∉ eventsOf (process_branch env b p l ins) := by
  have hbn : branch_needs_pull b (env.revList b) = (false, []) := by
    unfold branch_needs_pull
    rw [h]
    rfl
  rcases hco : run_command (checkoutCmd b) 10 (env.checkout b) with e | co <;>
    constructor <;>
    simp [process_branch, hco, hbn]

/-- Witness for C1: a concrete environment whose count query returns `0`;
the branch is processed without any pull and the run state is unchanged. -/
theorem claim1_witness :
    shape (process_branch envC1 "dev".data 0 0 []) = some (0, 0, []) ∧
    Event.gitPull ∉ eventsOf (process_branch envC1 "dev".data 0 0 []) :=
  claim1_zero_count_skips_pull envC1 "dev".data 0 0 [] rfl

/-- C2: For every branch, if the ahead/behind comparison query fails (the
command errors, times out, or its output is not parseable as an integer),
`branch_needs_pull` returns `True` (fail-open) rather than raising, and the
driver proceeds to attempt a pull for that branch. -/
theorem claim2_comparison_failure_fails_open (env : Env) (b : Str)
    (p l : Nat) (ins : List Str) (co : Str)
    (hco : run_command (checkoutCmd b) 10 (env.checkout b) = Except.ok co)
    (hcmp : ∀ s, run_command (revListCmd b) 10 (env.revList b) = Except.ok s →
      pyInt s = none) :
    (branch_needs_pull b (env.revList b)).fst = true ∧
    Event.gitPull ∈ eventsOf (process_branch env b p l ins) := by
  have hbn : (branch_needs_pull b (env.revList b)).fst = true := by
    unfold branch_needs_pull
    rcases hr : run_command (revListCmd b) 10 (env.revList b) with e | s
    · rfl
    · dsimp only
      rw [hcmp s hr]
  refine ⟨hbn, ?_⟩
  rcases hp : run_command "git pull".data 10 (env.pull p) with e2 | o2 <;>
    simp [process_branch, hco, hbn, hp]

/-- Witness for C2: a concrete environment whose comparison command fails;
the branch is pulled anyway. -/
theorem claim2_witness :
    (branch_needs_pull "dev".data (envC2.revList "dev".data)).fst = true ∧
    Event.gitPull ∈ eventsOf (process_branch envC2 "dev".data 0 0 []) :=
  claim2_comparison_failure_fails_open envC2 "dev".data 0 0 [] []
    rfl (by intro s h; simp [envC2, run_command] at h)

/-- C7: If the working directory is not a git repository (the repository
check fails or returns a non-true result), the program exits with status 1
and never invokes the fetch operation. -/
theorem claim7_not_a_repo_exits_without_fetch (env : Env) (inputs : List Str)
    (h : is_git_repo env.revParse = false) :
    mainRun env inputs =
      RunResult.exited
        [Event.gitRevParse,
         Event.print "Error: This directory is not a Git repository.".data] 1 ∧
    Event.gitFetch ∉
      [Event.gitRevParse,
       Event.print "Error: This directory is not a Git repository.".data] := by
  constructor
  · simp [mainRun, h]
  · decide

/-- Witness for C7: a concrete environment whose repository check fails. -/
theorem claim7_witness :
    mainRun envC7 [] =
      RunResult.exited
        [Event.gitRevParse,
         Event.print "Error: This directory is not a Git repository.".data] 1 ∧
    Event.gitFetch ∉
      [Event.gitRevParse,
       Event.print "Error: This directory is not a Git repository.".data] :=
  claim7_not_a_repo_exits_without_fetch envC7 [] (by decide)

/-- C8: For every branch, a checkout failure is non-fatal: a message is
printed to standard output, no entry is written to the error log, no retry
prompt is shown, and processing continues with the next branch. -/
theorem claim8_checkout_failure_silent_skip (env : Env) (b : Str) (p l : Nat)
    (ins : List Str) (e : Str)
    (hco : run_command (checkoutCmd b) 10 (env.checkout b) = Except.error e) :
    process_branch env b p l ins =
      Except.ok ([Event.print (procMsg b), Event.print "Checking out branch...".data,
        Event.gitCheckout b, Event.print (checkoutErrMsg b e)], p, l, ins) ∧
    Event.print (checkoutErrMsg b e) ∈ eventsOf (process_branch env b p l ins) ∧
    (∀ b2 m ok, Event.logAppend b2 m ok ∉ eventsOf (process_branch env b p l ins)) ∧
    (∀ b2, Event.prompt b2 ∉ eventsOf (process_branch env b p l ins)) := by
  have hred : process_branch env b p l ins =
      Except.ok ([Event.print (procMsg b), Event.print "Checking out branch...".data,
        Event.gitCheckout b, Event.print (checkoutErrMsg b e)], p, l, ins) := by
    simp [process_branch, hco]
  refine ⟨hred, ?_, ?_, ?_⟩ <;> rw [hred] <;> simp

/-- Witness for C8: a concrete environment whose checkout fails; the branch
is skipped with only a console message. -/
theorem claim8_witness :
    process_branch envC8 "dev".data 0 0 [] =
      Except.ok ([Event.print (procMsg "dev".data),
        Event.print "Checking out branch...".data, Event.gitCheckout "dev".data,
        Event.print (checkoutErrMsg "dev".data
          "error: pathspec did not match".data)], 0, 0, []) ∧
    Event.print (checkoutErrMsg "dev".data "error: pathspec did not match".data) ∈
      eventsOf (process_branch envC8 "dev".data 0 0 []) ∧
    (∀ b2 m ok, Event.logAppend b2 m ok ∉
      eventsOf (process_branch envC8 "dev".data 0 0 [])) ∧
    (∀ b2, Event.prompt b2 ∉ eventsOf (process_branch envC8 "dev".data 0 0 [])) :=
  claim8_checkout_failure_silent_skip envC8 "dev".data 0 0 []
    "error: pathspec did not match".data rfl

/-- C5: For every branch whose initial pull fails, if the operator then
enters `n` at the retry prompt, no further pull is invoked for that branch
(exactly one pull happened) and exactly one error-log entry exists for that
branch — the initial failure. -/
theorem claim5_decline_retry_single_log (env : Env) (b : Str) (p l : Nat)
    (u : Str) (rest : List Str) (co e : Str)
    (hco : run_command (checkoutCmd b) 10 (env.checkout b) = Except.ok co)
    (hbn : (branch_needs_pull b (env.revList b)).fst = true)
    (hp : run_command "git pull".data 10 (env.pull p) = Except.error e)
    (hu : pyLower (pyStrip u) = "n".data)
    (hlw : env.logWrite l = Except.ok ()) :
    shape (process_branch env b p l (u :: rest)) = some (p + 1, l + 1, rest) ∧
    pullCount (eventsOf (process_branch env b p l (u :: rest))) = 1 ∧
    logLinesFor b (eventsOf (process_branch env b p l (u :: rest))) =
      [logFormat b e] := by
  refine ⟨?_, ?_, ?_⟩ <;>
    simp [process_branch, retry_loop, withEvents, log_pull_error, hco, hbn,
      hp, hu, hlw]

/-- Witness for C5: failing pull, operator answers `n`; one pull, one log
line. -/
theorem claim5_witness :
    shape (process_branch envC5 "dev".data 0 0 ["n".data]) = some (1, 1, []) ∧
    pullCount (eventsOf (process_branch envC5 "dev".data 0 0 ["n".data])) = 1 ∧
    logLinesFor "dev".data
      (eventsOf (process_branch envC5 "dev".data 0 0 ["n".data])) =
      [logFormat "dev".data "merge conflict".data] :=
  claim5_decline_retry_single_log envC5 "dev".data 0 0 "n".data [] [] 
    "merge conflict".data rfl (by decide) rfl (by decide) rfl

/-- Each pass through the retry loop, including the `EOFError` abort on
exhausted input, begins by presenting the prompt. -/
theorem retry_loop_starts_with_prompt (env : Env) (b : Str) (p l : Nat)
    (ins : List Str) :
    ∃ t, eventsOf (retry_loop env b p l ins) = Event.prompt b :: t := by
  cases ins with
  | nil => exact ⟨[], rfl⟩
  | cons u rest =>
    by_cases hy : pyLower (pyStrip u) = "y".data
    · rcases hp : run_command "git pull".data 10 (env.pull p) with e2 | o
      · exact ⟨[Event.print "  Retrying pull...".data, Event.gitPull,
          Event.print (retryFailedMsg e2)] ++
          log_pull_error b ("Retry: ".data ++ e2) (env.logWrite l) ++
          eventsOf (retry_loop env b (p + 1) (l + 1) rest),
          by simp [retry_loop, hy, hp]⟩
      · exact ⟨[Event.print "  Retrying pull...".data, Event.gitPull,
          Event.print "  Pull succeeded.".data], by simp [retry_loop, hy, hp]⟩
    · by_cases hn : pyLower (pyStrip u) = "n".data
      · exact ⟨[Event.print (skipMsg b)], by simp [retry_loop, hy, hn]⟩
      · exact ⟨[Event.print pleaseMsg] ++ eventsOf (retry_loop env b p l rest),
          by simp [retry_loop, hy, hn]⟩

/-- C6: For every branch whose initial pull fails, if the operator enters
`y` and the retried pull also fails, the error log contains two entries for
that branch — each formatted `Pull error on branch '<branch>': <message>`,
the second with its message prefixed `Retry: ` — and the retry prompt is
presented again. -/
theorem claim6_retry_failure_two_log_entries (env : Env) (b : Str)
    (p l : Nat) (u1 : Str) (ins : List Str) (co e1 e2 : Str)
    (hco : run_command (checkoutCmd b) 10 (env.checkout b) = Except.ok co)
    (hbn : (branch_needs_pull b (env.revList b)).fst = true)
    (hp1 : run_command "git pull".data 10 (env.pull p) = Except.error e1)
    (hp2 : run_command "git pull".data 10 (env.pull (p + 1)) = Except.error e2)
    (hu1 : pyLower (pyStrip u1) = "y".data)
    (hlw1 : env.logWrite l = Except.ok ())
    (hlw2 : env.logWrite (l + 1) = Except.ok ()) :
    ∃ t, eventsOf (process_branch env b p l (u1 :: ins)) =
        claim6Events env b e1 e2 ++ Event.prompt b :: t ∧
      logLinesFor b (claim6Events env b e1 e2) =
        [logFormat b e1, logFormat b ("Retry: ".data ++ e2)] := by
  obtain ⟨t, ht⟩ := retry_loop_starts_with_prompt env b (p + 2) (l + 2) ins
  refine ⟨t, ?_, ?_⟩
  · have hred : eventsOf (process_branch env b p l (u1 :: ins)) =
        claim6Events env b e1 e2 ++ eventsOf (retry_loop env b (p + 2) (l + 2) ins) := by
      simp [process_branch, retry_loop, log_pull_error, claim6Events, hco,
        hbn, hp1, hp2, hu1, hlw1, hlw2]
    rw [hred, ht]
  · simp [claim6Events]

/-- Witness for C6: failing pull, operator answers `y`, the retry fails
too; two log lines, the second marked `Retry: `, and the prompt returns. -/
theorem claim6_witness :
    ∃ t, eventsOf (process_branch envC6 "dev".data 0 0 ["y".data, "n".data]) =
        claim6Events envC6 "dev".data "merge conflict".data "merge conflict".data ++
          Event.prompt "dev".data :: t ∧
      logLinesFor "dev".data
        (claim6Events envC6 "dev".data "merge conflict".data "merge conflict".data) =
        [logFormat "dev".data "merge conflict".data,
         logFormat "dev".data ("Retry: ".data ++ "merge conflict".data)] :=
  claim6_retry_failure_two_log_entries envC6 "dev".data 0 0 "y".data
    ["n".data] [] "merge conflict".data "merge conflict".data rfl (by decide)
    rfl rfl (by decide) rfl rfl

/-- The retry loop's control flow (git commands, prompts, loop exits and the
consumed inputs) does not depend on whether log-file appends succeed. -/
theorem retry_loop_logwrite_invariant (env : Env) (w : Nat → Except Str Unit)
    (b : Str) :
    ∀ (ins : List Str) (p l : Nat),
      shape (retry_loop (setLogWrite env w) b p l ins) =
        shape (retry_loop env b p l ins) ∧
      gitEvents (eventsOf (retry_loop (setLogWrite env w) b p l ins)) =
        gitEvents (eventsOf (retry_loop env b p l ins)) := by
  intro ins
  induction ins with
  | nil => intro p l; exact ⟨rfl, rfl⟩
  | cons u rest ih =>
    intro p l
    by_cases hy : pyLower (pyStrip u) = "y".data
    · rcases hp : run_command "git pull".data 10 (env.pull p) with e2 | o
      · constructor
        · simp only [retry_loop, hy, if_true, setLogWrite, hp, shape_withEvents]
          exact (ih (p + 1) (l + 1)).1
        · simp only [retry_loop, hy, if_true, setLogWrite, hp,
            eventsOf_withEvents, gitEvents_append, gitEvents_log_pull_error]
          have ih2 := (ih (p + 1) (l + 1)).2
          simp only [setLogWrite, gitEvents] at ih2
          simp [gitEvents, ih2]
      · constructor <;> simp [retry_loop, hy, hp, setLogWrite]
    · by_cases hn : pyLower (pyStrip u) = "n".data
      · constructor <;> simp [retry_loop, hy, hn, setLogWrite]
      · constructor
        · simp only [retry_loop, hy, hn, if_false, setLogWrite, shape_withEvents]
          exact (ih p l).1
        · simp only [retry_loop, hy, hn, if_false, setLogWrite,
            eventsOf_withEvents, gitEvents_append]
          have ih2 := (ih p l).2
          simp only [setLogWrite, gitEvents] at ih2
          simp [gitEvents, ih2]

/-- C10: `log_pull_error` is total at the driver's interface: a failed
log-file append is caught and printed and the function returns normally, so
replacing the log-append outcomes of a run (e.g. making every append fail)
changes neither the control-flow shape of a branch's processing nor its
sequence of git commands and prompts. -/
theorem claim10_log_failure_does_not_alter_flow (env : Env)
    (w : Nat → Except Str Unit) (b : Str) (p l : Nat) (ins : List Str) :
    (∀ m ex, Event.print ("Error logging pull error: ".data ++ ex) ∈
        log_pull_error b m (Except.error ex)) ∧
    shape (process_branch (setLogWrite env w) b p l ins) =
      shape (process_branch env b p l ins) ∧
    gitEvents (eventsOf (process_branch (setLogWrite env w) b p l ins)) =
      gitEvents (eventsOf (process_branch env b p l ins)) := by
  refine ⟨fun m ex => by simp [log_pull_error], ?_, ?_⟩
  · rcases hco : run_command (checkoutCmd b) 10 (env.checkout b) with e | co
    · simp [process_branch, setLogWrite, hco]
    · cases hbn : (branch_needs_pull b (env.revList b)).fst
      · simp [process_branch, setLogWrite, hco, hbn]
      · rcases hp : run_command "git pull".data 10 (env.pull p) with e2 | o
        · simp only [process_branch, setLogWrite, hco, hbn, hp,
            shape_withEvents]
          have h2 := (retry_loop_logwrite_invariant env w b ins (p + 1) (l + 1)).1
          simp only [setLogWrite] at h2
          simp [shape_withEvents, h2]
        · simp [process_branch, setLogWrite, hco, hbn, hp]
  · rcases hco : run_command (checkoutCmd b) 10 (env.checkout b) with e | co
    · simp [process_branch, setLogWrite, hco]
    · cases hbn : (branch_needs_pull b (env.revList b)).fst
      · simp [process_branch, setLogWrite, hco, hbn]
      · rcases hp : run_command "git pull".data 10 (env.pull p) with e2 | o
        · simp only [process_branch, setLogWrite, hco, hbn, hp,
            eventsOf_withEvents, gitEvents_append, gitEvents_log_pull_error]
          have h2 := (retry_loop_logwrite_invariant env w b ins (p + 1) (l + 1)).2
          simp only [setLogWrite, gitEvents] at h2
          have h3 : ∀ (m : Str) (w2 : Except Str Unit),
              gitEvents (log_pull_error b m w2) = [] :=
            fun m w2 => gitEvents_log_pull_error b m w2
          simp only [gitEvents] at h3
          simp [gitEvents, h2, h3]
        · simp [process_branch, setLogWrite, hco, hbn, hp]
